import Mathlib

/-!
# Verification of the insomnia project-pull reconciliation and OAuth2 token entry point

This file shallowly embeds two parts of the repository:

* the `pullProject` reconciliation sequence (`app/sync/vcs/pull-project.ts`).
  That implementation file is not part of the available sources; only its test
  (`app/sync/vcs/__tests__/pull-project.test.ts`) is.  The embedding below is
  therefore modelled from the specification (its §4.1 Space Resolver,
  §4.2 Workspace Reconciler, §4.3 Checkout Orchestrator), except where the
  repository's own test pins a behaviour that differs from the spec's wording;
  each such point is called out in the corresponding doc comment.

* the OAuth2 token entry point (`app/network/o-auth-2/get-token.ts`), which is
  part of the available sources and is embedded directly from the code.

Effectful collaborators (document store, version-control client, token
endpoints) are modelled by explicit state passing plus oracles for external
results, and every store write / client call is recorded in a trace so that
claims about "no write occurs" or "`pull` is called exactly once" become
statements about those traces.
-/

namespace Insomnia

/-- Remote team descriptor: `project.team` (`{ id, name }`). -/
structure Team where
  id : String
  name : String
deriving DecidableEq, Repr

/-- Remote project descriptor supplied to `pullProject`. -/
structure Project where
  rootDocumentId : String
  name : String
  team : Team
deriving DecidableEq, Repr

/-- Local space record: `_id`, nullable `remoteId`, `name`. -/
structure Space where
  _id : String
  remoteId : Option String
  name : String
deriving DecidableEq, Repr

/-- Local workspace record: `_id`, `name`, `parentId`, `scope`. -/
structure Workspace where
  _id : String
  name : String
  parentId : String
  scope : String
deriving DecidableEq, Repr

/-- A generic stored document (e.g. a request): identity, model type tag
(`"Workspace"`, `"Request"`, ...) and `parentId`. -/
structure Doc where
  _id : String
  type : String
  parentId : String
deriving DecidableEq, Repr

/-- The document store's contents, plus a counter from which generated ids are
drawn (the store generates `_id`s for created spaces). -/
structure LocalState where
  spaces : List Space
  workspaces : List Workspace
  docs : List Doc
  nextId : Nat
deriving DecidableEq, Repr

/-- A write issued to the document store.  The spec's §4.1 resolver "never
update[s] an existing space's name", so no space-update write exists here. -/
inductive StoreWrite where
  | createSpace (s : Space)
  | createWorkspace (w : Workspace)
  | updateWorkspace (wid name parentId : String)
  | updateDocParent (did parentId : String)
deriving DecidableEq, Repr

/-- A call issued to the version-control client. -/
inductive VcsCall where
  | setProject (p : Project)
  | getRemoteBranches
  | allDocuments
  | pull (docIds : List String) (remoteId : Option String)
  | checkout (docIds : List String) (branch : String)
deriving DecidableEq, Repr

/-- Oracle for the version-control client: what `getRemoteBranches()` and
`allDocuments()` return for the bound project (remote state). -/
structure VcsSnapshot where
  remoteBranches : List String
  allDocs : List Doc
deriving DecidableEq, Repr

/-- Modelled from the spec: "the fixed default branch name constant"
(`DEFAULT_BRANCH_NAME` from `common/constants`, not among the sources). -/
def DEFAULT_BRANCH_NAME : String := "master"

/-- `isRemoteSpace` from `models/space`: a space bound to a remote team. -/
def isRemoteSpace (s : Space) : Bool := s.remoteId.isSome

/-- The id the store generates for the next created record. -/
def freshSpaceId (σ : LocalState) : String := "sp_" ++ toString σ.nextId

/-- Modelled from the spec (§4.1 Space Resolver): search the candidate list for
a space whose `remoteId` matches; if found return it unchanged with no write,
otherwise create a new space with the supplied `remoteId` and `name` (at most
one store write, never an update).  Returns the resolved space, the new store
state and the writes issued. -/
def resolveSpace (cands : List Space) (remoteId name : String) (σ : LocalState) :
    Space × LocalState × List StoreWrite :=
  match cands.find? (fun s => s.remoteId == some remoteId) with
  | some s => (s, σ, [])
  | none =>
    let s : Space := ⟨freshSpaceId σ, some remoteId, name⟩
    (s, { σ with spaces := σ.spaces ++ [s], nextId := σ.nextId + 1 },
      [StoreWrite.createSpace s])

/-- The workspace field values the reconciler drives towards. -/
def desiredWorkspace (p : Project) (spaceId : String) (w : Workspace) : Workspace :=
  { w with name := p.name, parentId := spaceId }

/-- The workspace list after the reconciler's in-place correction: every
record found under the project's root-document id is driven to the desired
`name`/`parentId`; all other records are untouched. -/
def reconcileTarget (p : Project) (spaceId : String) (ws : List Workspace) :
    List Workspace :=
  ws.map (fun w => if w._id == p.rootDocumentId then desiredWorkspace p spaceId w else w)

/-- Modelled from the spec (§4.2 Workspace Reconciler, record part): look the
workspace up by `_id == project.rootDocumentId`; if absent create it with
`name = project.name`, `parentId = space._id`, `scope = 'collection'`; if
present and `name` or `parentId` differs from the desired values, update in
place (identity unchanged); if both already match, no write occurs. -/
def reconcileWorkspace (p : Project) (spaceId : String) (σ : LocalState) :
    LocalState × List StoreWrite :=
  if σ.workspaces.any (fun w => w._id == p.rootDocumentId) then
    if reconcileTarget p spaceId σ.workspaces == σ.workspaces then (σ, [])
    else ({ σ with workspaces := reconcileTarget p spaceId σ.workspaces },
      [StoreWrite.updateWorkspace p.rootDocumentId p.name spaceId])
  else
    ({ σ with workspaces := σ.workspaces ++ [⟨p.rootDocumentId, p.name, spaceId, "collection"⟩] },
      [StoreWrite.createWorkspace ⟨p.rootDocumentId, p.name, spaceId, "collection"⟩])

/-- Overwrite the `parentId` of every stored workspace with the given `_id`. -/
def overwriteParent (spaceId did : String) (ws : List Workspace) : List Workspace :=
  ws.map (fun w => if w._id == did then { w with parentId := spaceId } else w)

/-- One step of the pulled-document correction.  Modelled from the repository's
test (`pull-project.test.ts`, "should overwrite the parentId only for a
workspace with the space id"): among the documents returned by
`vcs.allDocuments()`, only those that are workspace documents have their
`parentId` overwritten with the resolved space's `_id`; every other document is
left untouched (the test's request, whose `parentId` equals the workspace's
`_id`, must remain strictly equal to its original record).  This differs from
the spec's §4.2 wording, which would rewrite documents by their `parentId`.
A write is recorded only when the store actually changes, as required by the
spec's §4.2/§8 idempotence rule ("if both already match, no write occurs"). -/
def correctPulledDoc (spaceId : String) (acc : List Workspace × List StoreWrite)
    (d : Doc) : List Workspace × List StoreWrite :=
  if d.type == "Workspace" then
    if overwriteParent spaceId d._id acc.1 == acc.1 then acc
    else (overwriteParent spaceId d._id acc.1,
      acc.2 ++ [StoreWrite.updateDocParent d._id spaceId])
  else acc

/-- The pulled-document correction pass over the whole supplied document set. -/
def correctPulledDocs (spaceId : String) (docs : List Doc) (ws : List Workspace) :
    List Workspace × List StoreWrite :=
  docs.foldl (correctPulledDoc spaceId) (ws, [])

/-- Result of a `pullProject` run: the final store state, the store writes it
issued (in order), and the version-control-client calls it issued (in order). -/
structure PullResult where
  state : LocalState
  writes : List StoreWrite
  calls : List VcsCall
deriving DecidableEq, Repr

/-- The space the Space Resolver (§4.1) resolves for the project when called
from `pullProject` (`remoteId = project.team.id`, `name = project.team.name`). -/
def pullSpace (p : Project) (cands : List Space) (σ : LocalState) : Space :=
  (resolveSpace cands p.team.id p.team.name σ).1

/-- The store state after the Space Resolver step of `pullProject`. -/
def pullAfterSpace (p : Project) (cands : List Space) (σ : LocalState) : LocalState :=
  (resolveSpace cands p.team.id p.team.name σ).2.1

/-- The writes the Space Resolver step of `pullProject` issues. -/
def pullSpaceWrites (p : Project) (cands : List Space) (σ : LocalState) :
    List StoreWrite :=
  (resolveSpace cands p.team.id p.team.name σ).2.2

/-- The store state and writes after the Workspace Reconciler step of
`pullProject` (run against the resolved space). -/
def pullAfterReconcile (p : Project) (cands : List Space) (σ : LocalState) :
    LocalState × List StoreWrite :=
  reconcileWorkspace p (pullSpace p cands σ)._id (pullAfterSpace p cands σ)

/-- The workspace list and writes after the pulled-document correction pass of
`pullProject` (only reached when remote branches exist). -/
def pullCorrected (vcs : VcsSnapshot) (p : Project) (cands : List Space)
    (σ : LocalState) : List Workspace × List StoreWrite :=
  correctPulledDocs (pullSpace p cands σ)._id vcs.allDocs
    (pullAfterReconcile p cands σ).1.workspaces

/-- Modelled from the spec (§4.3 Checkout Orchestrator), the entry point
`pullProject({ vcs, project, remoteSpaces })` (`sync/vcs/pull-project.ts` is
not among the sources): resolve the space from the supplied candidate list,
reconcile the workspace, bind the client (`setProject`), query
`getRemoteBranches()`; on an empty branch list checkout directly, otherwise
fetch `allDocuments()`, run the pulled-document correction, `pull([],
space.remoteId)` and finally `checkout([], DEFAULT_BRANCH_NAME)`. -/
def pullProject (vcs : VcsSnapshot) (project : Project) (remoteSpaces : List Space)
    (σ : LocalState) : PullResult :=
  if vcs.remoteBranches.isEmpty then
    ⟨(pullAfterReconcile project remoteSpaces σ).1,
     pullSpaceWrites project remoteSpaces σ ++ (pullAfterReconcile project remoteSpaces σ).2,
     [VcsCall.setProject project, VcsCall.getRemoteBranches,
      VcsCall.checkout [] DEFAULT_BRANCH_NAME]⟩
  else
    ⟨{ (pullAfterReconcile project remoteSpaces σ).1 with
        workspaces := (pullCorrected vcs project remoteSpaces σ).1 },
     pullSpaceWrites project remoteSpaces σ ++ (pullAfterReconcile project remoteSpaces σ).2 ++
       (pullCorrected vcs project remoteSpaces σ).2,
     [VcsCall.setProject project, VcsCall.getRemoteBranches, VcsCall.allDocuments,
      VcsCall.pull [] (pullSpace project remoteSpaces σ).remoteId,
      VcsCall.checkout [] DEFAULT_BRANCH_NAME]⟩

/-- One caller-faithful invocation: the caller supplies as `remoteSpaces` the
store's remote-bound spaces (the test builds them as `[space].filter
(isRemoteSpace)` from store records). -/
def pullOnce (vcs : VcsSnapshot) (project : Project) (σ : LocalState) : PullResult :=
  pullProject vcs project (σ.spaces.filter isRemoteSpace) σ

/-- Recognizer for `pull` calls in a trace. -/
def isPullCall : VcsCall → Bool
  | VcsCall.pull _ _ => true
  | _ => false

/-- Recognizer for `checkout` calls in a trace. -/
def isCheckoutCall : VcsCall → Bool
  | VcsCall.checkout _ _ => true
  | _ => false

/-- Recognizer for space-creation writes. -/
def isCreateSpaceWrite : StoreWrite → Bool
  | StoreWrite.createSpace _ => true
  | _ => false

/-- Recognizer for workspace-creation writes. -/
def isCreateWorkspaceWrite : StoreWrite → Bool
  | StoreWrite.createWorkspace _ => true
  | _ => false

/-- Recognizer for workspace-update writes. -/
def isUpdateWorkspaceWrite : StoreWrite → Bool
  | StoreWrite.updateWorkspace _ _ _ => true
  | _ => false

/-!
## OAuth2 token entry point (`app/network/o-auth-2/get-token.ts`)

This part is embedded directly from the source.  The four grant flows
(`grant-authorization-code`, `grant-client-credentials`, `grant-implicit`,
`grant-password`) and `refresh-token` are external modules; their results are
supplied by an oracle, and invoking them is recorded as an effect.  Likewise
`models.oAuth2Token.getByParentId(requestId)` is supplied by the oracle and
the `getOrCreateByParentId`/`update` pair of `_updateOAuth2Token` is recorded
as a single store-write effect carrying the written token. -/

/-- Stored OAuth2 token record (`models/o-auth-2-token`), restricted to the
fields `get-token.ts` reads or writes. -/
structure OAuth2Token where
  accessToken : Option String
  refreshToken : Option String
  identityToken : Option String
  expiresAt : Option Int
  error : Option String
deriving DecidableEq, Repr

/-- Response of a token endpoint (`Record<string, any>` in the source), keyed
by the `P_*` constants `get-token.ts` uses. -/
structure AuthResults where
  access_token : Option String
  refresh_token : Option String
  expires_in : Option Int
  id_token : Option String
  error : Option String
deriving DecidableEq, Repr

/-- Effects of the token entry point that matter here: invoking one of the
four token-acquisition flows, invoking the refresh flow, and writing to the
token store. -/
inductive TokenEffect where
  | fetchAuthorizationCode
  | fetchClientCredentials
  | fetchImplicit
  | fetchPassword
  | refreshFetch
  | storeWrite (t : OAuth2Token)
deriving DecidableEq, Repr

/-- `GRANT_TYPE_AUTHORIZATION_CODE` (from `o-auth-2/constants`, not among the
sources; the identifier values are those named by the dispatch). -/
def GRANT_TYPE_AUTHORIZATION_CODE : String := "authorization_code"

/-- `GRANT_TYPE_CLIENT_CREDENTIALS`. -/
def GRANT_TYPE_CLIENT_CREDENTIALS : String := "client_credentials"

/-- `GRANT_TYPE_IMPLICIT`. -/
def GRANT_TYPE_IMPLICIT : String := "implicit"

/-- `GRANT_TYPE_PASSWORD`. -/
def GRANT_TYPE_PASSWORD : String := "password"

/-- The request's authentication settings.  Only `grantType` steers
`get-token.ts` itself; the remaining fields are passed through verbatim to the
external flow modules, which the oracle stands in for. -/
structure RequestAuthentication where
  grantType : String
deriving DecidableEq, Repr

/-- Oracle for the entry point's collaborators: the current time
(`Date.now()`), the stored token for the request (`getByParentId(requestId)`),
and what each external flow would return. -/
structure OAuthEnv where
  now : Int
  storedToken : Option OAuth2Token
  authorizationCodeResults : AuthResults
  clientCredentialsResults : AuthResults
  implicitResults : AuthResults
  passwordResults : AuthResults
  refreshResults : AuthResults
deriving DecidableEq, Repr

/-- JavaScript `v || null` on an optional string: the empty string is falsy
and collapses to `null`. -/
def strOrNull : Option String → Option String
  | some "" => none
  | v => v

/-- `_updateOAuth2Token(requestId, authResults)`: compute `expiresAt` from
`expires_in` (`expiresIn ? Date.now() + expiresIn * 1000 : null`, where a zero
`expires_in` is falsy), build the patched token and write it to the store. -/
def updateOAuth2Token (env : OAuthEnv) (results : AuthResults) :
    OAuth2Token × List TokenEffect :=
  let expiresAt : Option Int :=
    match results.expires_in with
    | none => none
    | some v => if v = 0 then none else some (env.now + v * 1000)
  let t : OAuth2Token :=
    ⟨strOrNull results.access_token, strOrNull results.refresh_token,
     strOrNull results.id_token, expiresAt, strOrNull results.error⟩
  (t, [TokenEffect.storeWrite t])

/-- `const expiresAt = token.expiresAt || Infinity; Date.now() > expiresAt`:
an absent (or zero, falsy) `expiresAt` means never expired. -/
def tokenIsExpired (now : Int) (t : OAuth2Token) : Bool :=
  match t.expiresAt with
  | none => false
  | some v => if v = 0 then false else decide (now > v)

/-- `_getAccessToken(requestId, authentication, forceRefresh)`: return the
stored token when present, not expired and not force-refreshed; otherwise try
the refresh flow when a (truthy) refresh token exists, writing the refreshed
token back on success and returning `null` (fetch a brand new token) when no
refresh token exists or the refresh yielded no access token. -/
def getAccessToken (env : OAuthEnv) (forceRefresh : Bool) :
    Option OAuth2Token × List TokenEffect :=
  match env.storedToken with
  | none => (none, [])
  | some token =>
    if !tokenIsExpired env.now token && !forceRefresh then (some token, [])
    else
      match strOrNull token.refreshToken with
      | none => (none, [])
      | some _ =>
        let results := env.refreshResults
        match strOrNull results.access_token with
        | none => (none, [TokenEffect.refreshFetch])
        | some _ =>
          let u := updateOAuth2Token env results
          (some u.1, TokenEffect.refreshFetch :: u.2)

/-- `_getOAuth2AuthorizationCodeHeader`: reuse the stored token when
`_getAccessToken` yields one, otherwise run the authorization-code flow and
store its results. -/
def oAuth2AuthorizationCodeHeader (env : OAuthEnv) (forceRefresh : Bool) :
    Option OAuth2Token × List TokenEffect :=
  match getAccessToken env forceRefresh with
  | (some t, fx) => (some t, fx)
  | (none, fx) =>
    let u := updateOAuth2Token env env.authorizationCodeResults
    (some u.1, fx ++ [TokenEffect.fetchAuthorizationCode] ++ u.2)

/-- `_getOAuth2ClientCredentialsHeader`. -/
def oAuth2ClientCredentialsHeader (env : OAuthEnv) (forceRefresh : Bool) :
    Option OAuth2Token × List TokenEffect :=
  match getAccessToken env forceRefresh with
  | (some t, fx) => (some t, fx)
  | (none, fx) =>
    let u := updateOAuth2Token env env.clientCredentialsResults
    (some u.1, fx ++ [TokenEffect.fetchClientCredentials] ++ u.2)

/-- `_getOAuth2ImplicitHeader`. -/
def oAuth2ImplicitHeader (env : OAuthEnv) (forceRefresh : Bool) :
    Option OAuth2Token × List TokenEffect :=
  match getAccessToken env forceRefresh with
  | (some t, fx) => (some t, fx)
  | (none, fx) =>
    let u := updateOAuth2Token env env.implicitResults
    (some u.1, fx ++ [TokenEffect.fetchImplicit] ++ u.2)

/-- `_getOAuth2PasswordHeader`. -/
def oAuth2PasswordHeader (env : OAuthEnv) (forceRefresh : Bool) :
    Option OAuth2Token × List TokenEffect :=
  match getAccessToken env forceRefresh with
  | (some t, fx) => (some t, fx)
  | (none, fx) =>
    let u := updateOAuth2Token env env.passwordResults
    (some u.1, fx ++ [TokenEffect.fetchPassword] ++ u.2)

/-- The default export of `get-token.ts`: dispatch on
`authentication.grantType`, returning `null` for any unsupported grant type.
`requestId` only keys the store lookups, which `env` stands in for. -/
def getOAuth2Token (env : OAuthEnv) (requestId : String)
    (authentication : RequestAuthentication) (forceRefresh : Bool) :
    Option OAuth2Token × List TokenEffect :=
  if authentication.grantType == GRANT_TYPE_AUTHORIZATION_CODE then
    oAuth2AuthorizationCodeHeader env forceRefresh
  else if authentication.grantType == GRANT_TYPE_CLIENT_CREDENTIALS then
    oAuth2ClientCredentialsHeader env forceRefresh
  else if authentication.grantType == GRANT_TYPE_IMPLICIT then
    oAuth2ImplicitHeader env forceRefresh
  else if authentication.grantType == GRANT_TYPE_PASSWORD then
    oAuth2PasswordHeader env forceRefresh
  else (none, [])

/-!
## Concrete instances

Fixed inputs used by witnesses and the counterexample; the pull-side ones
mirror the scenario of the repository test "should overwrite the parentId
only for a workspace with the space id". -/

/-- The remote project of the concrete scenario. -/
def cexProject : Project := ⟨"wrk_1", "My API", ⟨"team_1", "My Team"⟩⟩

/-- Store contents before the pull: the workspace already exists under the
project's root-document id, and one request is parented to the workspace. -/
def cexState : LocalState :=
  ⟨[], [⟨"wrk_1", "My API", "old_parent", "collection"⟩],
   [⟨"req_1", "Request", "wrk_1"⟩], 0⟩

/-- Remote state: the default branch already exists, and the client's
documents are the workspace and the request (the request's `parentId` equals
the workspace's `_id`). -/
def cexVcs : VcsSnapshot :=
  ⟨[DEFAULT_BRANCH_NAME],
   [⟨"wrk_1", "Workspace", "old_parent"⟩, ⟨"req_1", "Request", "wrk_1"⟩]⟩

/-- A store state holding one space and no workspace, for witnesses. -/
def cexStateSpace : LocalState :=
  ⟨[⟨"sp_base", some "team_1", "My Team unique"⟩], [], [], 0⟩

/-- An empty store state. -/
def cexStateEmpty : LocalState := ⟨[], [], [], 0⟩

/-- A stored token with no expiry, for the OAuth witnesses. -/
def cexToken : OAuth2Token := ⟨some "tok", none, none, none, none⟩

/-- Endpoint results used by the OAuth witnesses (never reached there). -/
def cexResults : AuthResults := ⟨some "fresh", none, none, none, none⟩

/-- OAuth oracle with a stored, unexpired token. -/
def cexEnv : OAuthEnv :=
  ⟨1000, some cexToken, cexResults, cexResults, cexResults, cexResults, cexResults⟩

/-!
## Helper lemmas
-/

theorem map_self_of_fixed {α : Type} (f : α → α) (l : List α)
    (h : ∀ x ∈ l, f x = x) : l.map f = l := by
  induction l with
  | nil => rfl
  | cons a t ih =>
    simp only [List.map_cons]
    rw [h a (by simp), ih (fun x hx => h x (by simp [hx]))]

theorem fixed_of_map_self {α : Type} (f : α → α) (l : List α)
    (h : l.map f = l) : ∀ x ∈ l, f x = x := by
  induction l with
  | nil => simp
  | cons a t ih =>
    intro x hx
    simp only [List.map_cons, List.cons.injEq] at h
    rcases List.mem_cons.mp hx with rfl | hx'
    · exact h.1
    · exact ih h.2 x hx'

theorem workspace_set_parent_self (s : String) (w : Workspace)
    (h : w.parentId = s) : ({ w with parentId := s } : Workspace) = w := by
  cases w
  subst h
  rfl

theorem workspace_desired_self (p : Project) (sid : String) (w : Workspace)
    (h1 : w.name = p.name) (h2 : w.parentId = sid) : desiredWorkspace p sid w = w := by
  cases w
  simp only [desiredWorkspace]
  simp_all

theorem resolveSpace_found (cands : List Space) (rid nm : String) (σ : LocalState)
    (s : Space) (h : cands.find? (fun s => s.remoteId == some rid) = some s) :
    resolveSpace cands rid nm σ = (s, σ, []) := by
  simp [resolveSpace, h]

theorem resolveSpace_missing (cands : List Space) (rid nm : String) (σ : LocalState)
    (h : cands.find? (fun s => s.remoteId == some rid) = none) :
    resolveSpace cands rid nm σ =
      (⟨freshSpaceId σ, some rid, nm⟩,
       { σ with spaces := σ.spaces ++ [⟨freshSpaceId σ, some rid, nm⟩],
                nextId := σ.nextId + 1 },
       [StoreWrite.createSpace ⟨freshSpaceId σ, some rid, nm⟩]) := by
  simp [resolveSpace, h]

theorem resolveSpace_remoteId (cands : List Space) (rid nm : String) (σ : LocalState) :
    (resolveSpace cands rid nm σ).1.remoteId = some rid := by
  rcases h : cands.find? (fun s => s.remoteId == some rid) with _ | s
  · rw [resolveSpace_missing cands rid nm σ h]
  · rw [resolveSpace_found cands rid nm σ s h]
    have hp := List.find?_some h
    simp only [beq_iff_eq] at hp
    exact hp

theorem resolveSpace_spaces (cands : List Space) (rid nm : String) (σ : LocalState) :
    (resolveSpace cands rid nm σ).2.1.spaces = σ.spaces ∨
    (resolveSpace cands rid nm σ).2.1.spaces =
      σ.spaces ++ [(resolveSpace cands rid nm σ).1] := by
  rcases h : cands.find? (fun s => s.remoteId == some rid) with _ | s
  · rw [resolveSpace_missing cands rid nm σ h]; right; rfl
  · rw [resolveSpace_found cands rid nm σ s h]; left; rfl

theorem resolveSpace_other_components (cands : List Space) (rid nm : String)
    (σ : LocalState) :
    (resolveSpace cands rid nm σ).2.1.workspaces = σ.workspaces ∧
    (resolveSpace cands rid nm σ).2.1.docs = σ.docs := by
  rcases h : cands.find? (fun s => s.remoteId == some rid) with _ | s
  · rw [resolveSpace_missing cands rid nm σ h]; exact ⟨rfl, rfl⟩
  · rw [resolveSpace_found cands rid nm σ s h]; exact ⟨rfl, rfl⟩

theorem reconcileWorkspace_cases (p : Project) (sid : String) (σ : LocalState) :
    reconcileWorkspace p sid σ = (σ, []) ∨
    reconcileWorkspace p sid σ =
      ({ σ with workspaces := reconcileTarget p sid σ.workspaces },
       [StoreWrite.updateWorkspace p.rootDocumentId p.name sid]) ∨
    reconcileWorkspace p sid σ =
      ({ σ with workspaces :=
          σ.workspaces ++ [⟨p.rootDocumentId, p.name, sid, "collection"⟩] },
       [StoreWrite.createWorkspace ⟨p.rootDocumentId, p.name, sid, "collection"⟩]) := by
  unfold reconcileWorkspace
  split
  · split
    · exact Or.inl rfl
    · exact Or.inr (Or.inl rfl)
  · exact Or.inr (Or.inr rfl)

theorem reconcileTarget_mem (p : Project) (sid : String) (ws : List Workspace) :
    ∀ w ∈ reconcileTarget p sid ws, w._id = p.rootDocumentId →
      w.name = p.name ∧ w.parentId = sid := by
  intro w hw hid
  rcases List.mem_map.mp hw with ⟨w₀, hw₀, rfl⟩
  by_cases hc : (w₀._id == p.rootDocumentId) = true
  · rw [if_pos hc] at hid ⊢
    exact ⟨rfl, rfl⟩
  · rw [if_neg hc] at hid ⊢
    exact absurd (beq_iff_eq.mpr hid) hc

theorem reconcile_root_fields (p : Project) (sid : String) (σ : LocalState) :
    ∀ w ∈ (reconcileWorkspace p sid σ).1.workspaces, w._id = p.rootDocumentId →
      w.name = p.name ∧ w.parentId = sid := by
  intro w hw hid
  unfold reconcileWorkspace at hw
  split at hw
  · rename_i hany
    split at hw
    · rename_i heq
      rw [beq_iff_eq] at heq
      rw [← heq] at hw
      exact reconcileTarget_mem p sid σ.workspaces w hw hid
    · exact reconcileTarget_mem p sid σ.workspaces w hw hid
  · rename_i hany
    rcases List.mem_append.mp hw with hw' | hw'
    · exfalso
      apply hany
      exact List.any_eq_true.mpr ⟨w, hw', beq_iff_eq.mpr hid⟩
    · rcases List.mem_singleton.mp hw' with rfl
      exact ⟨rfl, rfl⟩

theorem reconcile_root_exists (p : Project) (sid : String) (σ : LocalState) :
    ∃ w ∈ (reconcileWorkspace p sid σ).1.workspaces, w._id = p.rootDocumentId := by
  unfold reconcileWorkspace
  split
  · rename_i hany
    rcases List.any_eq_true.mp hany with ⟨w₀, hw₀, hid₀⟩
    rw [beq_iff_eq] at hid₀
    split
    · exact ⟨w₀, hw₀, hid₀⟩
    · refine ⟨if w₀._id == p.rootDocumentId then desiredWorkspace p sid w₀ else w₀,
        List.mem_map_of_mem _ hw₀, ?_⟩
      rw [if_pos (beq_iff_eq.mpr hid₀)]
      exact hid₀
  · exact ⟨⟨p.rootDocumentId, p.name, sid, "collection"⟩, by simp, rfl⟩

theorem overwriteParent_pred (s did : String) (P : Workspace → Prop)
    (hP : ∀ w, P w → P { w with parentId := s }) (ws : List Workspace)
    (h : ∀ w ∈ ws, P w) : ∀ w ∈ overwriteParent s did ws, P w := by
  intro w hw
  rcases List.mem_map.mp hw with ⟨w₀, hw₀, rfl⟩
  by_cases hc : (w₀._id == did) = true
  · rw [if_pos hc]
    exact hP w₀ (h w₀ hw₀)
  · rw [if_neg hc]
    exact h w₀ hw₀

theorem overwriteParent_sets (s did : String) (ws : List Workspace) :
    ∀ w ∈ overwriteParent s did ws, w._id = did → w.parentId = s := by
  intro w hw hid
  rcases List.mem_map.mp hw with ⟨w₀, hw₀, rfl⟩
  by_cases hc : (w₀._id == did) = true
  · rw [if_pos hc]
  · rw [if_neg hc] at hid ⊢
    exact absurd (beq_iff_eq.mpr hid) hc

theorem correctPulledDoc_fst_cases (s : String) (acc : List Workspace × List StoreWrite)
    (d : Doc) :
    (correctPulledDoc s acc d).1 = acc.1 ∨
    (correctPulledDoc s acc d).1 = overwriteParent s d._id acc.1 := by
  unfold correctPulledDoc
  split
  · split
    · exact Or.inl rfl
    · exact Or.inr rfl
  · exact Or.inl rfl

theorem correctPulledDoc_snd_cases (s : String) (acc : List Workspace × List StoreWrite)
    (d : Doc) :
    (correctPulledDoc s acc d).2 = acc.2 ∨
    (correctPulledDoc s acc d).2 = acc.2 ++ [StoreWrite.updateDocParent d._id s] := by
  unfold correctPulledDoc
  split
  · split
    · exact Or.inl rfl
    · exact Or.inr rfl
  · exact Or.inl rfl

theorem correct_fold_pred (s : String) (P : Workspace → Prop)
    (hP : ∀ w, P w → P { w with parentId := s }) (docs : List Doc) :
    ∀ acc : List Workspace × List StoreWrite, (∀ w ∈ acc.1, P w) →
      ∀ w ∈ (docs.foldl (correctPulledDoc s) acc).1, P w := by
  induction docs with
  | nil => intro acc h; simpa using h
  | cons d rest ih =>
    intro acc h
    rw [List.foldl_cons]
    apply ih
    rcases correctPulledDoc_fst_cases s acc d with hc | hc
    · rw [hc]; exact h
    · rw [hc]; exact overwriteParent_pred s d._id P hP acc.1 h

theorem correct_fold_establishes (s : String) (docs : List Doc) :
    ∀ (acc : List Workspace × List StoreWrite) (d : Doc), d ∈ docs →
      d.type = "Workspace" →
      ∀ w ∈ (docs.foldl (correctPulledDoc s) acc).1, w._id = d._id →
        w.parentId = s := by
  induction docs with
  | nil => intro acc d hd; cases hd
  | cons d₀ rest ih =>
    intro acc d hd hty w hw hid
    rw [List.foldl_cons] at hw
    rcases List.mem_cons.mp hd with rfl | hd'
    · refine correct_fold_pred s (fun w => w._id = d._id → w.parentId = s)
        (fun w' _ _ => rfl) rest (correctPulledDoc s acc d) ?_ w hw hid
      intro w' hw' hid'
      have hbty : (d.type == "Workspace") = true := beq_iff_eq.mpr hty
      unfold correctPulledDoc at hw'
      rw [if_pos hbty] at hw'
      split at hw'
      · rename_i heq
        rw [beq_iff_eq] at heq
        rw [← heq] at hw'
        exact overwriteParent_sets s d._id acc.1 w' hw' hid'
      · exact overwriteParent_sets s d._id acc.1 w' hw' hid'
    · exact ih (correctPulledDoc s acc d₀) d hd' hty w hw hid

theorem correct_fold_fixed (s : String) (docs : List Doc) :
    ∀ acc : List Workspace × List StoreWrite,
      (∀ d ∈ docs, d.type = "Workspace" →
        ∀ w ∈ acc.1, w._id = d._id → w.parentId = s) →
      docs.foldl (correctPulledDoc s) acc = acc := by
  induction docs with
  | nil => intro acc _; rfl
  | cons d rest ih =>
    intro acc h
    rw [List.foldl_cons]
    have hstep : correctPulledDoc s acc d = acc := by
      unfold correctPulledDoc
      by_cases hty : (d.type == "Workspace") = true
      · rw [if_pos hty]
        have hmap : overwriteParent s d._id acc.1 = acc.1 := by
          unfold overwriteParent
          apply map_self_of_fixed
          intro w hw
          by_cases hc : (w._id == d._id) = true
          · rw [if_pos hc]
            exact workspace_set_parent_self s w
              (h d (by simp) (beq_iff_eq.mp hty) w hw (beq_iff_eq.mp hc))
          · rw [if_neg hc]
        rw [if_pos (beq_iff_eq.mpr hmap)]
      · rw [if_neg hty]
    rw [hstep]
    exact ih acc (fun d' hd' => h d' (List.mem_cons_of_mem _ hd'))

theorem correct_fold_writes (s : String) (docs : List Doc) :
    ∀ (acc : List Workspace × List StoreWrite) (x : StoreWrite),
      x ∈ (docs.foldl (correctPulledDoc s) acc).2 →
      x ∈ acc.2 ∨ ∃ i, x = StoreWrite.updateDocParent i s := by
  induction docs with
  | nil => intro acc x hx; exact Or.inl (by simpa using hx)
  | cons d rest ih =>
    intro acc x hx
    rw [List.foldl_cons] at hx
    rcases ih (correctPulledDoc s acc d) x hx with h | h
    · rcases correctPulledDoc_snd_cases s acc d with hc | hc
      · rw [hc] at h; exact Or.inl h
      · rw [hc] at h
        rcases List.mem_append.mp h with h' | h'
        · exact Or.inl h'
        · rcases List.mem_singleton.mp h' with rfl
          exact Or.inr ⟨d._id, rfl⟩
    · exact Or.inr h

theorem correct_fold_exists_id (s i : String) (docs : List Doc) :
    ∀ acc : List Workspace × List StoreWrite, (∃ w ∈ acc.1, w._id = i) →
      ∃ w ∈ (docs.foldl (correctPulledDoc s) acc).1, w._id = i := by
  induction docs with
  | nil => intro acc h; simpa using h
  | cons d rest ih =>
    intro acc h
    rw [List.foldl_cons]
    apply ih
    rcases correctPulledDoc_fst_cases s acc d with hc | hc
    · rw [hc]; exact h
    · rw [hc]
      unfold overwriteParent
      rcases h with ⟨w, hw, hid⟩
      refine ⟨if w._id == d._id then { w with parentId := s } else w,
        List.mem_map_of_mem _ hw, ?_⟩
      by_cases hb : (w._id == d._id) = true
      · rw [if_pos hb]; exact hid
      · rw [if_neg hb]; exact hid

theorem overwriteParent_countP_id (s did i : String) (ws : List Workspace) :
    (overwriteParent s did ws).countP (fun w => w._id == i) =
      ws.countP (fun w => w._id == i) := by
  unfold overwriteParent
  rw [List.countP_map]
  apply List.countP_congr
  intro w _
  simp only [Function.comp_apply]
  by_cases hb : (w._id == did) = true
  · rw [if_pos hb]
  · rw [if_neg hb]

theorem correct_fold_countP_id (s i : String) (docs : List Doc) :
    ∀ acc : List Workspace × List StoreWrite,
      (docs.foldl (correctPulledDoc s) acc).1.countP (fun w => w._id == i) =
        acc.1.countP (fun w => w._id == i) := by
  induction docs with
  | nil => intro acc; rfl
  | cons d rest ih =>
    intro acc
    rw [List.foldl_cons, ih]
    rcases correctPulledDoc_fst_cases s acc d with hc | hc
    · rw [hc]
    · rw [hc, overwriteParent_countP_id]

theorem reconcileTarget_countP_id (p : Project) (sid i : String)
    (ws : List Workspace) :
    (reconcileTarget p sid ws).countP (fun w => w._id == i) =
      ws.countP (fun w => w._id == i) := by
  unfold reconcileTarget
  rw [List.countP_map]
  apply List.countP_congr
  intro w _
  simp only [Function.comp_apply]
  by_cases hb : (w._id == p.rootDocumentId) = true
  · rw [if_pos hb]
    exact Iff.rfl
  · rw [if_neg hb]

theorem pullProject_empty (vcs : VcsSnapshot) (p : Project) (cands : List Space)
    (σ : LocalState) (h : vcs.remoteBranches = []) :
    pullProject vcs p cands σ =
      ⟨(pullAfterReconcile p cands σ).1,
       pullSpaceWrites p cands σ ++ (pullAfterReconcile p cands σ).2,
       [VcsCall.setProject p, VcsCall.getRemoteBranches,
        VcsCall.checkout [] DEFAULT_BRANCH_NAME]⟩ := by
  simp [pullProject, h]

theorem pullProject_nonempty (vcs : VcsSnapshot) (p : Project) (cands : List Space)
    (σ : LocalState) (h : vcs.remoteBranches ≠ []) :
    pullProject vcs p cands σ =
      ⟨{ (pullAfterReconcile p cands σ).1 with
          workspaces := (pullCorrected vcs p cands σ).1 },
       pullSpaceWrites p cands σ ++ (pullAfterReconcile p cands σ).2 ++
         (pullCorrected vcs p cands σ).2,
       [VcsCall.setProject p, VcsCall.getRemoteBranches, VcsCall.allDocuments,
        VcsCall.pull [] (pullSpace p cands σ).remoteId,
        VcsCall.checkout [] DEFAULT_BRANCH_NAME]⟩ := by
  rw [pullProject, if_neg]
  simpa using h

theorem reconcile_spaces_docs (p : Project) (sid : String) (σ : LocalState) :
    (reconcileWorkspace p sid σ).1.spaces = σ.spaces ∧
    (reconcileWorkspace p sid σ).1.docs = σ.docs ∧
    (reconcileWorkspace p sid σ).1.nextId = σ.nextId := by
  rcases reconcileWorkspace_cases p sid σ with h | h | h
  · rw [h]; exact ⟨rfl, rfl, rfl⟩
  · rw [h]; exact ⟨rfl, rfl, rfl⟩
  · rw [h]; exact ⟨rfl, rfl, rfl⟩

theorem reconcile_writes_kinds (p : Project) (sid : String) (σ : LocalState) :
    (reconcileWorkspace p sid σ).2 = [] ∨
    (reconcileWorkspace p sid σ).2 =
      [StoreWrite.updateWorkspace p.rootDocumentId p.name sid] ∨
    (reconcileWorkspace p sid σ).2 =
      [StoreWrite.createWorkspace ⟨p.rootDocumentId, p.name, sid, "collection"⟩] := by
  rcases reconcileWorkspace_cases p sid σ with h | h | h
  · rw [h]; exact Or.inl rfl
  · rw [h]; exact Or.inr (Or.inl rfl)
  · rw [h]; exact Or.inr (Or.inr rfl)

theorem pullCorrected_writes_kinds (vcs : VcsSnapshot) (p : Project)
    (cands : List Space) (σ : LocalState) :
    ∀ x ∈ (pullCorrected vcs p cands σ).2,
      ∃ i, x = StoreWrite.updateDocParent i (pullSpace p cands σ)._id := by
  intro x hx
  unfold pullCorrected correctPulledDocs at hx
  rcases correct_fold_writes (pullSpace p cands σ)._id vcs.allDocs _ x hx with h | h
  · cases h
  · exact h

theorem pullAfterSpace_other (p : Project) (cands : List Space) (σ : LocalState) :
    (pullAfterSpace p cands σ).workspaces = σ.workspaces ∧
    (pullAfterSpace p cands σ).docs = σ.docs := by
  unfold pullAfterSpace
  exact resolveSpace_other_components cands p.team.id p.team.name σ

theorem reconcileWorkspace_absent (p : Project) (sid : String) (σ : LocalState)
    (h : ∀ w ∈ σ.workspaces, w._id ≠ p.rootDocumentId) :
    reconcileWorkspace p sid σ =
      ({ σ with workspaces :=
          σ.workspaces ++ [⟨p.rootDocumentId, p.name, sid, "collection"⟩] },
       [StoreWrite.createWorkspace ⟨p.rootDocumentId, p.name, sid, "collection"⟩]) := by
  have hany : σ.workspaces.any (fun w => w._id == p.rootDocumentId) = false := by
    rw [List.any_eq_false]
    intro w hw
    simpa using h w hw
  unfold reconcileWorkspace
  rw [hany, if_neg Bool.false_ne_true]

theorem reconcileWorkspace_update_case (p : Project) (sid : String) (σ : LocalState)
    (hany : σ.workspaces.any (fun w => w._id == p.rootDocumentId) = true)
    (hne : reconcileTarget p sid σ.workspaces ≠ σ.workspaces) :
    reconcileWorkspace p sid σ =
      ({ σ with workspaces := reconcileTarget p sid σ.workspaces },
       [StoreWrite.updateWorkspace p.rootDocumentId p.name sid]) := by
  unfold reconcileWorkspace
  rw [hany, if_pos rfl, if_neg (fun hb => hne (beq_iff_eq.mp hb))]

theorem desiredWorkspace_eq (p : Project) (sid : String) (w : Workspace)
    (hid : w._id = p.rootDocumentId) :
    desiredWorkspace p sid w = ⟨p.rootDocumentId, p.name, sid, w.scope⟩ := by
  cases w
  simp only [desiredWorkspace]
  simp_all

theorem correct_fold_mem_fixed (s : String) (docs : List Doc) :
    ∀ (acc : List Workspace × List StoreWrite) (w : Workspace), w ∈ acc.1 →
      w.parentId = s → w ∈ (docs.foldl (correctPulledDoc s) acc).1 := by
  induction docs with
  | nil => intro acc w hw _; simpa using hw
  | cons d rest ih =>
    intro acc w hw hp
    rw [List.foldl_cons]
    apply ih _ w _ hp
    rcases correctPulledDoc_fst_cases s acc d with hc | hc
    · rw [hc]; exact hw
    · rw [hc]
      unfold overwriteParent
      have hfix : (if w._id == d._id then ({ w with parentId := s } : Workspace) else w) = w := by
        by_cases hb : (w._id == d._id) = true
        · rw [if_pos hb]
          exact workspace_set_parent_self s w hp
        · rw [if_neg hb]
      rw [← hfix]
      exact List.mem_map_of_mem _ hw

theorem pullSpaceWrites_kinds (p : Project) (cands : List Space) (σ : LocalState) :
    pullSpaceWrites p cands σ = [] ∨
    ∃ s, pullSpaceWrites p cands σ = [StoreWrite.createSpace s] := by
  unfold pullSpaceWrites
  rcases h : cands.find? (fun s => s.remoteId == some p.team.id) with _ | s
  · rw [resolveSpace_missing cands p.team.id p.team.name σ h]
    exact Or.inr ⟨_, rfl⟩
  · rw [resolveSpace_found cands p.team.id p.team.name σ s h]
    exact Or.inl rfl

theorem pullSpaceWrites_filter_ws (p : Project) (cands : List Space) (σ : LocalState) :
    (pullSpaceWrites p cands σ).filter isCreateWorkspaceWrite = [] ∧
    (pullSpaceWrites p cands σ).filter isUpdateWorkspaceWrite = [] := by
  rcases pullSpaceWrites_kinds p cands σ with h | ⟨s, h⟩
  · rw [h]; exact ⟨rfl, rfl⟩
  · rw [h]; exact ⟨rfl, rfl⟩

theorem pullCorrected_filter_ws (vcs : VcsSnapshot) (p : Project)
    (cands : List Space) (σ : LocalState) :
    (pullCorrected vcs p cands σ).2.filter isCreateWorkspaceWrite = [] ∧
    (pullCorrected vcs p cands σ).2.filter isUpdateWorkspaceWrite = [] := by
  constructor
  · apply List.filter_eq_nil_iff.mpr
    intro x hx
    rcases pullCorrected_writes_kinds vcs p cands σ x hx with ⟨i, rfl⟩
    simp [isCreateWorkspaceWrite]
  · apply List.filter_eq_nil_iff.mpr
    intro x hx
    rcases pullCorrected_writes_kinds vcs p cands σ x hx with ⟨i, rfl⟩
    simp [isUpdateWorkspaceWrite]

theorem reconcileWorkspace_noop (p : Project) (sid : String) (σ : LocalState)
    (hany : σ.workspaces.any (fun w => w._id == p.rootDocumentId) = true)
    (heq : reconcileTarget p sid σ.workspaces = σ.workspaces) :
    reconcileWorkspace p sid σ = (σ, []) := by
  unfold reconcileWorkspace
  rw [hany, if_pos rfl, if_pos (beq_iff_eq.mpr heq)]

theorem pullProject_state_spaces (vcs : VcsSnapshot) (p : Project)
    (cands : List Space) (σ : LocalState) :
    (pullProject vcs p cands σ).state.spaces = (pullAfterSpace p cands σ).spaces := by
  by_cases hbr : vcs.remoteBranches = []
  · rw [pullProject_empty vcs p cands σ hbr]
    show (pullAfterReconcile p cands σ).1.spaces = _
    unfold pullAfterReconcile
    exact (reconcile_spaces_docs p (pullSpace p cands σ)._id (pullAfterSpace p cands σ)).1
  · rw [pullProject_nonempty vcs p cands σ hbr]
    show (pullAfterReconcile p cands σ).1.spaces = _
    unfold pullAfterReconcile
    exact (reconcile_spaces_docs p (pullSpace p cands σ)._id (pullAfterSpace p cands σ)).1

theorem pullProject_root_exists (vcs : VcsSnapshot) (p : Project)
    (cands : List Space) (σ : LocalState) :
    ∃ w ∈ (pullProject vcs p cands σ).state.workspaces, w._id = p.rootDocumentId := by
  by_cases hbr : vcs.remoteBranches = []
  · rw [pullProject_empty vcs p cands σ hbr]
    show ∃ w ∈ (pullAfterReconcile p cands σ).1.workspaces, _
    unfold pullAfterReconcile
    exact reconcile_root_exists p (pullSpace p cands σ)._id (pullAfterSpace p cands σ)
  · rw [pullProject_nonempty vcs p cands σ hbr]
    show ∃ w ∈ (pullCorrected vcs p cands σ).1, _
    unfold pullCorrected correctPulledDocs
    apply correct_fold_exists_id
    show ∃ w ∈ (pullAfterReconcile p cands σ).1.workspaces, _
    unfold pullAfterReconcile
    exact reconcile_root_exists p (pullSpace p cands σ)._id (pullAfterSpace p cands σ)

theorem pullProject_root_fields (vcs : VcsSnapshot) (p : Project)
    (cands : List Space) (σ : LocalState) :
    ∀ w ∈ (pullProject vcs p cands σ).state.workspaces, w._id = p.rootDocumentId →
      w.name = p.name ∧ w.parentId = (pullSpace p cands σ)._id := by
  by_cases hbr : vcs.remoteBranches = []
  · rw [pullProject_empty vcs p cands σ hbr]
    intro w hw hid
    exact reconcile_root_fields p (pullSpace p cands σ)._id
      (pullAfterSpace p cands σ) w hw hid
  · rw [pullProject_nonempty vcs p cands σ hbr]
    intro w hw hid
    have hw' : w ∈ (pullCorrected vcs p cands σ).1 := hw
    unfold pullCorrected correctPulledDocs at hw'
    refine correct_fold_pred (pullSpace p cands σ)._id
      (fun w => w._id = p.rootDocumentId →
        w.name = p.name ∧ w.parentId = (pullSpace p cands σ)._id)
      (fun w' hP hid' => ⟨(hP hid').1, rfl⟩) vcs.allDocs _ ?_ w hw' hid
    intro w' hw'' hid''
    exact reconcile_root_fields p (pullSpace p cands σ)._id
      (pullAfterSpace p cands σ) w' hw'' hid''

theorem pull_docs_targets (vcs : VcsSnapshot) (p : Project) (cands : List Space)
    (σ : LocalState) (hne : vcs.remoteBranches ≠ []) :
    ∀ d ∈ vcs.allDocs, d.type = "Workspace" →
      ∀ w ∈ (pullProject vcs p cands σ).state.workspaces, w._id = d._id →
        w.parentId = (pullSpace p cands σ)._id := by
  rw [pullProject_nonempty vcs p cands σ hne]
  intro d hd hty w hw hid
  have hw' : w ∈ (pullCorrected vcs p cands σ).1 := hw
  unfold pullCorrected correctPulledDocs at hw'
  exact correct_fold_establishes (pullSpace p cands σ)._id vcs.allDocs _ d hd hty w hw' hid

theorem pull_docs_unchanged (vcs : VcsSnapshot) (p : Project) (cands : List Space)
    (σ : LocalState) :
    (pullProject vcs p cands σ).state.docs = σ.docs := by
  have hdocs : (pullAfterReconcile p cands σ).1.docs = σ.docs := by
    unfold pullAfterReconcile
    rw [(reconcile_spaces_docs p (pullSpace p cands σ)._id (pullAfterSpace p cands σ)).2.1]
    exact (pullAfterSpace_other p cands σ).2
  by_cases hbr : vcs.remoteBranches = []
  · rw [pullProject_empty vcs p cands σ hbr]
    exact hdocs
  · rw [pullProject_nonempty vcs p cands σ hbr]
    exact hdocs

theorem pullOnce_find_next (vcs : VcsSnapshot) (p : Project) (σ : LocalState) :
    ((pullOnce vcs p σ).state.spaces.filter isRemoteSpace).find?
        (fun s => s.remoteId == some p.team.id) =
      some (pullSpace p (σ.spaces.filter isRemoteSpace) σ) := by
  unfold pullOnce
  rw [pullProject_state_spaces]
  unfold pullAfterSpace pullSpace
  rcases h : (σ.spaces.filter isRemoteSpace).find?
      (fun s => s.remoteId == some p.team.id) with _ | s
  · rw [resolveSpace_missing (σ.spaces.filter isRemoteSpace) p.team.id p.team.name σ h]
    show ((σ.spaces ++ [(⟨freshSpaceId σ, some p.team.id, p.team.name⟩ : Space)]).filter
        isRemoteSpace).find? (fun s => s.remoteId == some p.team.id) =
      some (⟨freshSpaceId σ, some p.team.id, p.team.name⟩ : Space)
    rw [List.filter_append, List.find?_append, h]
    simp [isRemoteSpace]
  · rw [resolveSpace_found (σ.spaces.filter isRemoteSpace) p.team.id p.team.name σ s h]
    exact h

/-!
## Claim theorems
-/

/-- C2: in every `pullProject` invocation, when `getRemoteBranches()` returns
an empty set `pull` is never invoked; when it returns a non-empty set `pull`
is invoked exactly once, with an empty prior-document-id list and the
resolved space's `remoteId` as its arguments. -/
theorem pullProject_pull_discipline (vcs : VcsSnapshot) (p : Project)
    (cands : List Space) (σ : LocalState) :
    (pullProject vcs p cands σ).calls.filter isPullCall =
      if vcs.remoteBranches = [] then []
      else [VcsCall.pull [] (pullSpace p cands σ).remoteId] := by
  by_cases h : vcs.remoteBranches = []
  · rw [pullProject_empty vcs p cands σ h, if_pos h]
    rfl
  · rw [pullProject_nonempty vcs p cands σ h, if_neg h]
    rfl

/-- C3: in every `pullProject` invocation, `checkout` is called exactly once,
always with an empty prior-document-id list and the fixed
`DEFAULT_BRANCH_NAME` constant, and `checkout` is the last
version-control-client call of the sequence. -/
theorem pullProject_checkout_invariant (vcs : VcsSnapshot) (p : Project)
    (cands : List Space) (σ : LocalState) :
    (pullProject vcs p cands σ).calls.filter isCheckoutCall =
      [VcsCall.checkout [] DEFAULT_BRANCH_NAME] ∧
    (pullProject vcs p cands σ).calls.getLast? =
      some (VcsCall.checkout [] DEFAULT_BRANCH_NAME) := by
  by_cases h : vcs.remoteBranches = []
  · rw [pullProject_empty vcs p cands σ h]
    exact ⟨rfl, rfl⟩
  · rw [pullProject_nonempty vcs p cands σ h]
    exact ⟨rfl, rfl⟩

/-- Counterexample to C1 as stated: in the scenario of the repository's own
test ("should overwrite the parentId only for a workspace with the space id"),
the remote branch set is non-empty, the supplied document set contains a
request whose `parentId` equals the workspace's `_id`
(`project.rootDocumentId`), and after the pull that request is NOT reparented
to the resolved space: it is left strictly unchanged, with `parentId` still
`"wrk_1"`, which differs from the resolved space's `_id` `"sp_0"`. -/
theorem pullProject_orphan_rewrite_refuted :
    cexVcs.remoteBranches ≠ [] ∧
    (⟨"req_1", "Request", "wrk_1"⟩ : Doc) ∈ cexVcs.allDocs ∧
    cexProject.rootDocumentId = "wrk_1" ∧
    ((⟨"wrk_1", "My API", "old_parent", "collection"⟩ : Workspace) ∈
      cexState.workspaces) ∧
    (pullProject cexVcs cexProject [] cexState).state.docs =
      [⟨"req_1", "Request", "wrk_1"⟩] ∧
    (pullSpace cexProject [] cexState)._id = "sp_0" ∧
    ("wrk_1" : String) ≠ "sp_0" := by
  refine ⟨by decide, by decide, rfl, by decide, by decide, by decide, by decide⟩

/-- C1 (amended): after pulling an existing remote project (non-empty remote
branches), the store's generic documents are ALL left unchanged — including
any whose `parentId` equals the workspace's `_id` — and among the supplied
document set only workspace documents are corrected: every stored workspace
whose `_id` matches a workspace document of the supplied set ends with
`parentId` equal to the resolved space's `_id`. -/
theorem pullProject_workspace_only_parent_overwrite (vcs : VcsSnapshot)
    (p : Project) (cands : List Space) (σ : LocalState)
    (hne : vcs.remoteBranches ≠ []) :
    (pullProject vcs p cands σ).state.docs = σ.docs ∧
    ∀ d ∈ vcs.allDocs, d.type = "Workspace" →
      ∀ w ∈ (pullProject vcs p cands σ).state.workspaces, w._id = d._id →
        w.parentId = (pullSpace p cands σ)._id :=
  ⟨pull_docs_unchanged vcs p cands σ, pull_docs_targets vcs p cands σ hne⟩

/-- Witness for the amended C1 at the test's scenario. -/
theorem pullProject_workspace_only_parent_overwrite_witness :
    cexVcs.remoteBranches ≠ [] ∧
    (pullProject cexVcs cexProject [] cexState).state.docs = cexState.docs :=
  ⟨by decide,
   (pullProject_workspace_only_parent_overwrite cexVcs cexProject [] cexState
     (by decide)).1⟩

/-- C8: running the full pull sequence twice against unchanged remote state is
idempotent: the second run issues no store writes at all and leaves the store
state exactly as after the first run (in particular the workspace's `name` and
`parentId` are unchanged and no workspace write occurs).  Each run receives as
`remoteSpaces` the store's remote-bound spaces, as the caller does. -/
theorem pullProject_idempotent (vcs : VcsSnapshot) (p : Project) (σ : LocalState) :
    (pullOnce vcs p (pullOnce vcs p σ).state).writes = [] ∧
    (pullOnce vcs p (pullOnce vcs p σ).state).state = (pullOnce vcs p σ).state := by
  have hfind2 := pullOnce_find_next vcs p σ
  have hres2 := resolveSpace_found
    ((pullOnce vcs p σ).state.spaces.filter isRemoteSpace) p.team.id p.team.name
    (pullOnce vcs p σ).state (pullSpace p (σ.spaces.filter isRemoteSpace) σ) hfind2
  have hps2 : pullSpace p ((pullOnce vcs p σ).state.spaces.filter isRemoteSpace)
      (pullOnce vcs p σ).state = pullSpace p (σ.spaces.filter isRemoteSpace) σ := by
    unfold pullSpace
    rw [hres2]
    rfl
  have hpa2 : pullAfterSpace p ((pullOnce vcs p σ).state.spaces.filter isRemoteSpace)
      (pullOnce vcs p σ).state = (pullOnce vcs p σ).state := by
    unfold pullAfterSpace
    rw [hres2]
  have hpw2 : pullSpaceWrites p ((pullOnce vcs p σ).state.spaces.filter isRemoteSpace)
      (pullOnce vcs p σ).state = [] := by
    unfold pullSpaceWrites
    rw [hres2]
  have hany2 : (pullOnce vcs p σ).state.workspaces.any
      (fun w => w._id == p.rootDocumentId) = true := by
    rcases pullProject_root_exists vcs p (σ.spaces.filter isRemoteSpace) σ with
      ⟨w, hw, hid⟩
    exact List.any_eq_true.mpr ⟨w, hw, beq_iff_eq.mpr hid⟩
  have htgt2 : reconcileTarget p (pullSpace p (σ.spaces.filter isRemoteSpace) σ)._id
      (pullOnce vcs p σ).state.workspaces = (pullOnce vcs p σ).state.workspaces := by
    unfold reconcileTarget
    apply map_self_of_fixed
    intro w hw
    by_cases hb : (w._id == p.rootDocumentId) = true
    · rw [if_pos hb]
      have hf := pullProject_root_fields vcs p (σ.spaces.filter isRemoteSpace) σ w hw
        (beq_iff_eq.mp hb)
      exact workspace_desired_self p _ w hf.1 hf.2
    · rw [if_neg hb]
  have hrec2 : pullAfterReconcile p
      ((pullOnce vcs p σ).state.spaces.filter isRemoteSpace) (pullOnce vcs p σ).state =
      ((pullOnce vcs p σ).state, []) := by
    unfold pullAfterReconcile
    rw [hps2, hpa2]
    exact reconcileWorkspace_noop p (pullSpace p (σ.spaces.filter isRemoteSpace) σ)._id
      (pullOnce vcs p σ).state hany2 htgt2
  have houter : pullOnce vcs p (pullOnce vcs p σ).state =
      pullProject vcs p ((pullOnce vcs p σ).state.spaces.filter isRemoteSpace)
        (pullOnce vcs p σ).state := rfl
  by_cases hbr : vcs.remoteBranches = []
  · rw [houter, pullProject_empty vcs p
      ((pullOnce vcs p σ).state.spaces.filter isRemoteSpace)
      (pullOnce vcs p σ).state hbr, hrec2, hpw2]
    exact ⟨rfl, rfl⟩
  · have hfix2 : pullCorrected vcs p
        ((pullOnce vcs p σ).state.spaces.filter isRemoteSpace)
        (pullOnce vcs p σ).state = ((pullOnce vcs p σ).state.workspaces, []) := by
      unfold pullCorrected correctPulledDocs
      rw [hps2, hrec2]
      exact correct_fold_fixed (pullSpace p (σ.spaces.filter isRemoteSpace) σ)._id
        vcs.allDocs _
        (fun d hd hty w hw hid =>
          pull_docs_targets vcs p (σ.spaces.filter isRemoteSpace) σ hbr d hd hty w hw hid)
    rw [houter, pullProject_nonempty vcs p
      ((pullOnce vcs p σ).state.spaces.filter isRemoteSpace)
      (pullOnce vcs p σ).state hbr, hrec2, hpw2, hfix2]
    exact ⟨rfl, rfl⟩

/-- C4: for every existing space `S` with `S.remoteId = project.team.id`
(found by the resolver among the supplied remote-bound candidates), pulling
never changes `S` — the whole space list is left exactly as it was — the
resolver returns the matching space unchanged with no write, and no
space-creating write is issued at all (the model has no space-update write). -/
theorem pullProject_space_stability (vcs : VcsSnapshot) (p : Project)
    (cands : List Space) (σ : LocalState) (S : Space)
    (hS : S ∈ σ.spaces)
    (hfind : cands.find? (fun s => s.remoteId == some p.team.id) = some S) :
    S ∈ (pullProject vcs p cands σ).state.spaces ∧
    (pullProject vcs p cands σ).state.spaces = σ.spaces ∧
    resolveSpace cands p.team.id p.team.name σ = (S, σ, []) ∧
    (pullProject vcs p cands σ).writes.countP isCreateSpaceWrite = 0 := by
  have hres := resolveSpace_found cands p.team.id p.team.name σ S hfind
  have hrw : pullSpaceWrites p cands σ = [] := by
    unfold pullSpaceWrites
    rw [hres]
  have hsp : (pullAfterReconcile p cands σ).1.spaces = σ.spaces := by
    unfold pullAfterReconcile pullAfterSpace
    rw [hres]
    exact (reconcile_spaces_docs p (pullSpace p cands σ)._id σ).1
  have hrecW : (pullAfterReconcile p cands σ).2.countP isCreateSpaceWrite = 0 := by
    unfold pullAfterReconcile
    rcases reconcile_writes_kinds p (pullSpace p cands σ)._id
      (pullAfterSpace p cands σ) with h | h | h
    · rw [h]; rfl
    · rw [h]; rfl
    · rw [h]; rfl
  by_cases hbr : vcs.remoteBranches = []
  · rw [pullProject_empty vcs p cands σ hbr]
    refine ⟨?_, hsp, hres, ?_⟩
    · show S ∈ (pullAfterReconcile p cands σ).1.spaces
      rw [hsp]
      exact hS
    · show (pullSpaceWrites p cands σ ++
        (pullAfterReconcile p cands σ).2).countP isCreateSpaceWrite = 0
      rw [List.countP_append, hrw, hrecW]
      rfl
  · rw [pullProject_nonempty vcs p cands σ hbr]
    have hcorr0 : (pullCorrected vcs p cands σ).2.countP isCreateSpaceWrite = 0 := by
      apply List.countP_eq_zero.mpr
      intro x hx
      rcases pullCorrected_writes_kinds vcs p cands σ x hx with ⟨i, rfl⟩
      simp [isCreateSpaceWrite]
    refine ⟨?_, hsp, hres, ?_⟩
    · show S ∈ (pullAfterReconcile p cands σ).1.spaces
      rw [hsp]
      exact hS
    · show ((pullSpaceWrites p cands σ ++ (pullAfterReconcile p cands σ).2) ++
        (pullCorrected vcs p cands σ).2).countP isCreateSpaceWrite = 0
      rw [List.countP_append, List.countP_append, hrw, hrecW, hcorr0]
      rfl

/-- Witness for C4: pulling with an existing matching space leaves the space
list untouched. -/
theorem pullProject_space_stability_witness :
    ((⟨"sp_base", some "team_1", "My Team unique"⟩ : Space) ∈ cexStateSpace.spaces) ∧
    (pullProject cexVcs cexProject [⟨"sp_base", some "team_1", "My Team unique"⟩]
        cexStateSpace).state.spaces = cexStateSpace.spaces :=
  ⟨by decide,
   (pullProject_space_stability cexVcs cexProject
      [⟨"sp_base", some "team_1", "My Team unique"⟩] cexStateSpace
      ⟨"sp_base", some "team_1", "My Team unique"⟩ (by decide) (by decide)).2.1⟩

/-- C5: for every project with no supplied candidate space bound to
`project.team.id`, pulling creates exactly one new space, with
`name = project.team.name` and `remoteId = project.team.id`. -/
theorem pullProject_space_creation (vcs : VcsSnapshot) (p : Project)
    (cands : List Space) (σ : LocalState)
    (hnone : ∀ s ∈ cands, s.remoteId ≠ some p.team.id) :
    (pullProject vcs p cands σ).state.spaces =
      σ.spaces ++ [⟨freshSpaceId σ, some p.team.id, p.team.name⟩] ∧
    (pullProject vcs p cands σ).writes.filter isCreateSpaceWrite =
      [StoreWrite.createSpace ⟨freshSpaceId σ, some p.team.id, p.team.name⟩] := by
  have hfind : cands.find? (fun s => s.remoteId == some p.team.id) = none := by
    apply List.find?_eq_none.mpr
    intro s hs
    simpa using hnone s hs
  have hres := resolveSpace_missing cands p.team.id p.team.name σ hfind
  have hrw : pullSpaceWrites p cands σ =
      [StoreWrite.createSpace ⟨freshSpaceId σ, some p.team.id, p.team.name⟩] := by
    unfold pullSpaceWrites
    rw [hres]
  have hsp : (pullAfterReconcile p cands σ).1.spaces =
      σ.spaces ++ [⟨freshSpaceId σ, some p.team.id, p.team.name⟩] := by
    unfold pullAfterReconcile pullAfterSpace
    rw [hres]
    exact (reconcile_spaces_docs p (pullSpace p cands σ)._id _).1
  have hrecf : (pullAfterReconcile p cands σ).2.filter isCreateSpaceWrite = [] := by
    unfold pullAfterReconcile
    rcases reconcile_writes_kinds p (pullSpace p cands σ)._id
      (pullAfterSpace p cands σ) with h | h | h
    · rw [h]; rfl
    · rw [h]; rfl
    · rw [h]; rfl
  by_cases hbr : vcs.remoteBranches = []
  · rw [pullProject_empty vcs p cands σ hbr]
    refine ⟨hsp, ?_⟩
    show (pullSpaceWrites p cands σ ++
      (pullAfterReconcile p cands σ).2).filter isCreateSpaceWrite = _
    rw [List.filter_append, hrw, hrecf]
    rfl
  · rw [pullProject_nonempty vcs p cands σ hbr]
    have hcf : (pullCorrected vcs p cands σ).2.filter isCreateSpaceWrite = [] := by
      apply List.filter_eq_nil_iff.mpr
      intro x hx
      rcases pullCorrected_writes_kinds vcs p cands σ x hx with ⟨i, rfl⟩
      simp [isCreateSpaceWrite]
    refine ⟨hsp, ?_⟩
    show ((pullSpaceWrites p cands σ ++ (pullAfterReconcile p cands σ).2) ++
      (pullCorrected vcs p cands σ).2).filter isCreateSpaceWrite = _
    rw [List.filter_append, List.filter_append, hrw, hrecf, hcf]
    rfl

/-- Witness for C5: pulling into an empty store with no candidates creates
exactly the one expected space. -/
theorem pullProject_space_creation_witness :
    (∀ s ∈ ([] : List Space), s.remoteId ≠ some cexProject.team.id) ∧
    (pullProject cexVcs cexProject [] cexStateEmpty).state.spaces =
      cexStateEmpty.spaces ++
        [⟨freshSpaceId cexStateEmpty, some cexProject.team.id, cexProject.team.name⟩] :=
  ⟨by simp,
   (pullProject_space_creation cexVcs cexProject [] cexStateEmpty (by simp)).1⟩

/-- C6: for every project such that no workspace exists under
`project.rootDocumentId`, pulling creates exactly one workspace with that
`_id`, `name = project.name`, `parentId` = the resolved space's `_id` and
`scope = 'collection'`. -/
theorem pullProject_workspace_creation (vcs : VcsSnapshot) (p : Project)
    (cands : List Space) (σ : LocalState)
    (habs : ∀ w ∈ σ.workspaces, w._id ≠ p.rootDocumentId) :
    (⟨p.rootDocumentId, p.name, (pullSpace p cands σ)._id, "collection"⟩ : Workspace) ∈
      (pullProject vcs p cands σ).state.workspaces ∧
    (pullProject vcs p cands σ).state.workspaces.countP
      (fun w => w._id == p.rootDocumentId) = 1 ∧
    (pullProject vcs p cands σ).writes.filter isCreateWorkspaceWrite =
      [StoreWrite.createWorkspace
        ⟨p.rootDocumentId, p.name, (pullSpace p cands σ)._id, "collection"⟩] := by
  have hws1 : (pullAfterSpace p cands σ).workspaces = σ.workspaces :=
    (pullAfterSpace_other p cands σ).1
  have habs1 : ∀ w ∈ (pullAfterSpace p cands σ).workspaces, w._id ≠ p.rootDocumentId := by
    rw [hws1]
    exact habs
  have hrec : pullAfterReconcile p cands σ =
      ({ pullAfterSpace p cands σ with
          workspaces := (pullAfterSpace p cands σ).workspaces ++
            [⟨p.rootDocumentId, p.name, (pullSpace p cands σ)._id, "collection"⟩] },
       [StoreWrite.createWorkspace
         ⟨p.rootDocumentId, p.name, (pullSpace p cands σ)._id, "collection"⟩]) := by
    unfold pullAfterReconcile
    exact reconcileWorkspace_absent p (pullSpace p cands σ)._id
      (pullAfterSpace p cands σ) habs1
  have hcount0 : σ.workspaces.countP (fun w => w._id == p.rootDocumentId) = 0 := by
    apply List.countP_eq_zero.mpr
    intro w hw
    simpa using habs w hw
  have hcountRec : (pullAfterReconcile p cands σ).1.workspaces.countP
      (fun w => w._id == p.rootDocumentId) = 1 := by
    simp only [hrec]
    rw [List.countP_append, hws1, hcount0]
    simp
  have hmemRec : (⟨p.rootDocumentId, p.name, (pullSpace p cands σ)._id, "collection"⟩ :
      Workspace) ∈ (pullAfterReconcile p cands σ).1.workspaces := by
    simp [hrec]
  by_cases hbr : vcs.remoteBranches = []
  · rw [pullProject_empty vcs p cands σ hbr]
    refine ⟨hmemRec, hcountRec, ?_⟩
    show (pullSpaceWrites p cands σ ++
      (pullAfterReconcile p cands σ).2).filter isCreateWorkspaceWrite = _
    rw [List.filter_append, (pullSpaceWrites_filter_ws p cands σ).1, hrec]
    rfl
  · rw [pullProject_nonempty vcs p cands σ hbr]
    refine ⟨?_, ?_, ?_⟩
    · show _ ∈ (pullCorrected vcs p cands σ).1
      unfold pullCorrected correctPulledDocs
      exact correct_fold_mem_fixed (pullSpace p cands σ)._id vcs.allDocs _ _ hmemRec rfl
    · show (pullCorrected vcs p cands σ).1.countP (fun w => w._id == p.rootDocumentId) = 1
      unfold pullCorrected correctPulledDocs
      rw [correct_fold_countP_id]
      exact hcountRec
    · show ((pullSpaceWrites p cands σ ++ (pullAfterReconcile p cands σ).2) ++
        (pullCorrected vcs p cands σ).2).filter isCreateWorkspaceWrite = _
      rw [List.filter_append, List.filter_append,
        (pullSpaceWrites_filter_ws p cands σ).1,
        (pullCorrected_filter_ws vcs p cands σ).1, hrec]
      rfl

/-- Witness for C6: pulling with no pre-existing workspace leaves exactly one
workspace under the project's root-document id. -/
theorem pullProject_workspace_creation_witness :
    (∀ w ∈ cexStateSpace.workspaces, w._id ≠ cexProject.rootDocumentId) ∧
    (pullProject cexVcs cexProject [] cexStateSpace).state.workspaces.countP
      (fun w => w._id == cexProject.rootDocumentId) = 1 :=
  ⟨by simp [cexStateSpace],
   (pullProject_workspace_creation cexVcs cexProject [] cexStateSpace
     (by simp [cexStateSpace])).2.1⟩

/-- C7: for every existing workspace whose `_id` equals
`project.rootDocumentId` but whose `name` or `parentId` differs from the
desired values, pulling updates those fields in place (keeping `_id` and
`scope`), exactly one workspace under that id exists afterward, exactly one
workspace-update write occurs, and no workspace is created. -/
theorem pullProject_workspace_correction (vcs : VcsSnapshot) (p : Project)
    (cands : List Space) (σ : LocalState) (w : Workspace)
    (hw : w ∈ σ.workspaces)
    (hid : w._id = p.rootDocumentId)
    (hcount : σ.workspaces.countP (fun w => w._id == p.rootDocumentId) = 1)
    (hdiff : w.name ≠ p.name ∨ w.parentId ≠ (pullSpace p cands σ)._id) :
    (⟨p.rootDocumentId, p.name, (pullSpace p cands σ)._id, w.scope⟩ : Workspace) ∈
      (pullProject vcs p cands σ).state.workspaces ∧
    (pullProject vcs p cands σ).state.workspaces.countP
      (fun w => w._id == p.rootDocumentId) = 1 ∧
    (pullProject vcs p cands σ).writes.filter isUpdateWorkspaceWrite =
      [StoreWrite.updateWorkspace p.rootDocumentId p.name (pullSpace p cands σ)._id] ∧
    (pullProject vcs p cands σ).writes.filter isCreateWorkspaceWrite = [] := by
  have hws1 : (pullAfterSpace p cands σ).workspaces = σ.workspaces :=
    (pullAfterSpace_other p cands σ).1
  have hne : reconcileTarget p (pullSpace p cands σ)._id σ.workspaces ≠ σ.workspaces := by
    intro heq
    unfold reconcileTarget at heq
    have hfix := fixed_of_map_self _ σ.workspaces heq w hw
    rw [if_pos (beq_iff_eq.mpr hid)] at hfix
    rcases hdiff with hd | hd
    · exact hd (congrArg Workspace.name hfix).symm
    · exact hd (congrArg Workspace.parentId hfix).symm
  have hany1 : (pullAfterSpace p cands σ).workspaces.any
      (fun w => w._id == p.rootDocumentId) = true := by
    rw [hws1]
    exact List.any_eq_true.mpr ⟨w, hw, beq_iff_eq.mpr hid⟩
  have hne1 : reconcileTarget p (pullSpace p cands σ)._id
      (pullAfterSpace p cands σ).workspaces ≠ (pullAfterSpace p cands σ).workspaces := by
    rw [hws1]
    exact hne
  have hrec : pullAfterReconcile p cands σ =
      ({ pullAfterSpace p cands σ with
          workspaces := reconcileTarget p (pullSpace p cands σ)._id
            (pullAfterSpace p cands σ).workspaces },
       [StoreWrite.updateWorkspace p.rootDocumentId p.name (pullSpace p cands σ)._id]) := by
    unfold pullAfterReconcile
    exact reconcileWorkspace_update_case p (pullSpace p cands σ)._id
      (pullAfterSpace p cands σ) hany1 hne1
  have hmemRec : (⟨p.rootDocumentId, p.name, (pullSpace p cands σ)._id, w.scope⟩ :
      Workspace) ∈ (pullAfterReconcile p cands σ).1.workspaces := by
    simp only [hrec]
    show _ ∈ reconcileTarget p (pullSpace p cands σ)._id (pullAfterSpace p cands σ).workspaces
    rw [hws1]
    unfold reconcileTarget
    rw [← desiredWorkspace_eq p (pullSpace p cands σ)._id w hid]
    have hfw : desiredWorkspace p (pullSpace p cands σ)._id w =
        (if w._id == p.rootDocumentId
          then desiredWorkspace p (pullSpace p cands σ)._id w else w) := by
      rw [if_pos (beq_iff_eq.mpr hid)]
    rw [hfw]
    exact List.mem_map_of_mem _ hw
  have hcountRec : (pullAfterReconcile p cands σ).1.workspaces.countP
      (fun w => w._id == p.rootDocumentId) = 1 := by
    simp only [hrec]
    show (reconcileTarget p (pullSpace p cands σ)._id
      (pullAfterSpace p cands σ).workspaces).countP _ = 1
    rw [reconcileTarget_countP_id, hws1, hcount]
  by_cases hbr : vcs.remoteBranches = []
  · rw [pullProject_empty vcs p cands σ hbr]
    refine ⟨hmemRec, hcountRec, ?_, ?_⟩
    · show (pullSpaceWrites p cands σ ++
        (pullAfterReconcile p cands σ).2).filter isUpdateWorkspaceWrite = _
      rw [List.filter_append, (pullSpaceWrites_filter_ws p cands σ).2, hrec]
      rfl
    · show (pullSpaceWrites p cands σ ++
        (pullAfterReconcile p cands σ).2).filter isCreateWorkspaceWrite = _
      rw [List.filter_append, (pullSpaceWrites_filter_ws p cands σ).1, hrec]
      rfl
  · rw [pullProject_nonempty vcs p cands σ hbr]
    refine ⟨?_, ?_, ?_, ?_⟩
    · show _ ∈ (pullCorrected vcs p cands σ).1
      unfold pullCorrected correctPulledDocs
      exact correct_fold_mem_fixed (pullSpace p cands σ)._id vcs.allDocs _ _ hmemRec rfl
    · show (pullCorrected vcs p cands σ).1.countP (fun w => w._id == p.rootDocumentId) = 1
      unfold pullCorrected correctPulledDocs
      rw [correct_fold_countP_id]
      exact hcountRec
    · show ((pullSpaceWrites p cands σ ++ (pullAfterReconcile p cands σ).2) ++
        (pullCorrected vcs p cands σ).2).filter isUpdateWorkspaceWrite = _
      rw [List.filter_append, List.filter_append,
        (pullSpaceWrites_filter_ws p cands σ).2,
        (pullCorrected_filter_ws vcs p cands σ).2, hrec]
      rfl
    · show ((pullSpaceWrites p cands σ ++ (pullAfterReconcile p cands σ).2) ++
        (pullCorrected vcs p cands σ).2).filter isCreateWorkspaceWrite = _
      rw [List.filter_append, List.filter_append,
        (pullSpaceWrites_filter_ws p cands σ).1,
        (pullCorrected_filter_ws vcs p cands σ).1, hrec]
      rfl

/-- Witness for C7: a workspace stored under the root-document id with a
stale `parentId` is corrected, with exactly one workspace remaining. -/
theorem pullProject_workspace_correction_witness :
    ((⟨"wrk_1", "My API", "old_parent", "collection"⟩ : Workspace) ∈
      cexState.workspaces) ∧
    (pullProject cexVcs cexProject [] cexState).state.workspaces.countP
      (fun w => w._id == cexProject.rootDocumentId) = 1 :=
  ⟨by decide,
   (pullProject_workspace_correction cexVcs cexProject [] cexState
      ⟨"wrk_1", "My API", "old_parent", "collection"⟩
      (by decide) (by decide) (by decide) (Or.inr (by decide))).2.1⟩

/-- C9: for every request and authentication whose grant type is not one of
the four supported grants, the OAuth2 entry point returns `null` and performs
no token fetch, refresh, or store write. -/
theorem getOAuth2Token_unsupported_grant (env : OAuthEnv) (requestId : String)
    (auth : RequestAuthentication) (forceRefresh : Bool)
    (h1 : auth.grantType ≠ GRANT_TYPE_AUTHORIZATION_CODE)
    (h2 : auth.grantType ≠ GRANT_TYPE_CLIENT_CREDENTIALS)
    (h3 : auth.grantType ≠ GRANT_TYPE_IMPLICIT)
    (h4 : auth.grantType ≠ GRANT_TYPE_PASSWORD) :
    getOAuth2Token env requestId auth forceRefresh = (none, []) := by
  unfold getOAuth2Token
  rw [if_neg (by simpa using h1), if_neg (by simpa using h2),
      if_neg (by simpa using h3), if_neg (by simpa using h4)]

/-- Witness for C9: an authentication with grant type `"foo"` yields `null`
and no effects. -/
theorem getOAuth2Token_unsupported_grant_witness :
    ("foo" : String) ≠ GRANT_TYPE_AUTHORIZATION_CODE ∧
    getOAuth2Token cexEnv "req_1" ⟨"foo"⟩ false = (none, []) :=
  ⟨by decide,
   getOAuth2Token_unsupported_grant cexEnv "req_1" ⟨"foo"⟩ false
     (by decide) (by decide) (by decide) (by decide)⟩

/-- C10: for every supported grant type, when a stored token exists, no force
refresh is requested and the token is not expired (`expiresAt` absent or not
exceeded by the current time), the entry point returns the stored token
unchanged with no fetch, refresh or store write. -/
theorem getOAuth2Token_stored_token_reuse (env : OAuthEnv) (requestId : String)
    (auth : RequestAuthentication) (t : OAuth2Token)
    (hstored : env.storedToken = some t)
    (hfresh : t.expiresAt = none ∨ ∃ v, t.expiresAt = some v ∧ env.now ≤ v)
    (hgrant : auth.grantType = GRANT_TYPE_AUTHORIZATION_CODE ∨
      auth.grantType = GRANT_TYPE_CLIENT_CREDENTIALS ∨
      auth.grantType = GRANT_TYPE_IMPLICIT ∨
      auth.grantType = GRANT_TYPE_PASSWORD) :
    getOAuth2Token env requestId auth false = (some t, []) := by
  have hexp : tokenIsExpired env.now t = false := by
    unfold tokenIsExpired
    rcases hfresh with h | ⟨v, hv, hle⟩
    · rw [h]
    · rw [hv]
      show (if v = 0 then false else decide (env.now > v)) = false
      by_cases hz : v = 0
      · rw [if_pos hz]
      · rw [if_neg hz]
        simp [Int.not_lt.mpr hle]
  have hacc : getAccessToken env false = (some t, []) := by
    unfold getAccessToken
    rw [hstored]
    simp [hexp]
  rcases hgrant with h | h | h | h
  · simp [getOAuth2Token, h, oAuth2AuthorizationCodeHeader, hacc,
      GRANT_TYPE_AUTHORIZATION_CODE, GRANT_TYPE_CLIENT_CREDENTIALS,
      GRANT_TYPE_IMPLICIT, GRANT_TYPE_PASSWORD]
  · simp [getOAuth2Token, h, oAuth2ClientCredentialsHeader, hacc,
      GRANT_TYPE_AUTHORIZATION_CODE, GRANT_TYPE_CLIENT_CREDENTIALS,
      GRANT_TYPE_IMPLICIT, GRANT_TYPE_PASSWORD]
  · simp [getOAuth2Token, h, oAuth2ImplicitHeader, hacc,
      GRANT_TYPE_AUTHORIZATION_CODE, GRANT_TYPE_CLIENT_CREDENTIALS,
      GRANT_TYPE_IMPLICIT, GRANT_TYPE_PASSWORD]
  · simp [getOAuth2Token, h, oAuth2PasswordHeader, hacc,
      GRANT_TYPE_AUTHORIZATION_CODE, GRANT_TYPE_CLIENT_CREDENTIALS,
      GRANT_TYPE_IMPLICIT, GRANT_TYPE_PASSWORD]

/-- Witness for C10: with a stored unexpired token and the
authorization-code grant, the stored token is returned with no effects. -/
theorem getOAuth2Token_stored_token_reuse_witness :
    cexEnv.storedToken = some cexToken ∧
    getOAuth2Token cexEnv "req_1" ⟨GRANT_TYPE_AUTHORIZATION_CODE⟩ false =
      (some cexToken, []) :=
  ⟨rfl,
   getOAuth2Token_stored_token_reuse cexEnv "req_1"
     ⟨GRANT_TYPE_AUTHORIZATION_CODE⟩ cexToken rfl (Or.inl rfl) (Or.inl rfl)⟩

end Insomnia
